import Mathlib

/-!
Verification of the `piston` event-loop scheduler (`src/lib.rs`).

The Rust `Events<W, I, E>` iterator is embedded shallowly:

* `u64` values are `Nat` with wrapping arithmetic made explicit
  (`uadd`, `usub`, modulus `U64 = 2 ^ 64`), matching release-mode Rust;
* `f64` values (`dt`, `ext_dt`) are modelled as `ℚ`;
* the generic `Window` back-end is modelled by `WindowState`: a fixed
  close-intent flag, a fixed drawable size, and a queue of pending input
  items that `poll_event` pops from the front;
* the generic `EventMap` factory is modelled by the canonical event type
  `Event I` with one constructor per factory method;
* the monotonic clock `clock_ticks::precise_time_ns()` is a stream
  `clock : Nat → Nat` indexed by the number of samples taken so far
  (the `tick` counter threaded through the step function);
* one iteration of the internal `loop` in `Events::next` is the function
  `step`; a whole `next` call is `nextFuel` (fuel-bounded, since the
  internal loop only terminates because real clocks advance); a run of
  the iterator is `drive` (stops at the end-of-sequence signal) and the
  raw micro-step trace is `runSteps`;
* Source calls and sleeps performed by a step are logged as `Effect`s;
* the `quack_set!` setters for `Ups` and `MaxFps` divide `BILLION` by the
  given value; Rust integer division by zero panics, which is modelled by
  returning `none`.
-/

namespace Piston

/-- Modulus of Rust `u64` arithmetic. -/
def U64 : Nat := 2 ^ 64

/-- Wrapping `u64` addition (release-mode Rust semantics). -/
def uadd (a b : Nat) : Nat := (a + b) % U64

/-- Wrapping `u64` subtraction (release-mode Rust semantics). -/
def usub (a b : Nat) : Nat := (a + U64 - b % U64) % U64

/-- The constant `BILLION` from the source. -/
def BILLION : Nat := 1000000000

/-- Render arguments (`RenderArgs` in the source); `ext_dt` is the
extrapolated time in seconds modelled as a rational. -/
structure RenderArgs where
  ext_dt : ℚ
  width : Nat
  height : Nat
deriving DecidableEq

/-- Update arguments (`UpdateArgs` in the source). -/
structure UpdateArgs where
  dt : ℚ
deriving DecidableEq

/-- Idle arguments (`IdleArgs` in the source). -/
structure IdleArgs where
  dt : ℚ
deriving DecidableEq

/-- The canonical instance of the `EventMap` factory contract: one
constructor per factory method, applied to the corresponding payload. -/
inductive Event (I : Type) where
  | render (args : RenderArgs)
  | update (args : UpdateArgs)
  | input (payload : I)
  | idle (args : IdleArgs)
deriving DecidableEq

/-- The `Idle` flag stored inside the `UpdateLoop` state. -/
inductive Idle where
  | no
  | yes
deriving DecidableEq

/-- The internal `State` enum of the scheduler. -/
inductive State where
  | render
  | swapBuffers
  | updateLoop (idle : Idle)
  | handleEvents
  | update
deriving DecidableEq

/-- Model of the `Window` back-end: `should_close` and `size` are fixed
queries, `queue` holds the pending input items that `poll_event` returns
one at a time (front first, `none` when empty). -/
structure WindowState (I : Type) where
  should_close : Bool
  size : Nat × Nat
  queue : List I
deriving DecidableEq

/-- The `Events` iterator state (`Events<W, I, E>` in the source; the
phantom markers carry no data and are dropped). -/
structure Events (I : Type) where
  window : WindowState I
  state : State
  last_update : Nat
  last_frame : Nat
  dt_update_in_ns : Nat
  dt_frame_in_ns : Nat
  dt : ℚ
deriving DecidableEq

variable {I : Type}

/-- Constructor `Events::new`: `start` is the clock value sampled at
construction; defaults are `Ups(120)` and `MaxFps(60)`. -/
def Events.new (window : WindowState I) (start : Nat) : Events I :=
  { window := window
    state := State.render
    last_update := start
    last_frame := start
    dt_update_in_ns := BILLION / 120
    dt_frame_in_ns := BILLION / 60
    dt := 1 / (120 : ℚ) }

/-- The `quack_set!` setter for `Ups`: sets `dt_update_in_ns = BILLION /
ups` and `dt = 1.0 / ups`. Rust integer division by zero panics, so
`ups = 0` yields `none` (no scheduler results from the configuration). -/
def set_ups (e : Events I) (ups : Nat) : Option (Events I) :=
  if ups = 0 then none
  else some { e with dt_update_in_ns := BILLION / ups, dt := 1 / (ups : ℚ) }

/-- The `quack_set!` setter for `MaxFps`: sets `dt_frame_in_ns = BILLION /
max_fps`. Rust integer division by zero panics, so `max_fps = 0` yields
`none`. -/
def set_max_fps (e : Events I) (max_fps : Nat) : Option (Events I) :=
  if max_fps = 0 then none
  else some { e with dt_frame_in_ns := BILLION / max_fps }

/-- Local `next_frame = self.last_frame + self.dt_frame_in_ns` of the
`UpdateLoop` arm. -/
def Events.next_frame (e : Events I) : Nat := uadd e.last_frame e.dt_frame_in_ns

/-- Local `next_update = self.last_update + self.dt_update_in_ns` of the
`UpdateLoop` arm. -/
def Events.next_update (e : Events I) : Nat := uadd e.last_update e.dt_update_in_ns

/-- Local `next_event = min(next_frame, next_update)` of the `UpdateLoop`
arm. -/
def Events.next_event (e : Events I) : Nat := min e.next_frame e.next_update

/-- Observable side effects of one micro-step: the Source capability calls
made and the blocking sleeps performed, in order. -/
inductive Effect where
  | callShouldClose
  | callSize
  | callSwapBuffers
  | callPollEvent
  | sleep (ns : Nat)
deriving DecidableEq

/-- Result of one iteration of the internal `loop` of `Events::next`:
either an event is returned (`emit`), the loop continues silently
(`cont`), or `None` is returned ending the sequence (`stop`). Each carries
the scheduler as left behind by the iteration. -/
inductive StepOut (I : Type) where
  | emit (ev : Event I) (next : Events I)
  | cont (next : Events I)
  | stop (next : Events I)
deriving DecidableEq

/-- The scheduler left behind by a micro-step. -/
def StepOut.sched : StepOut I → Events I
  | StepOut.emit _ e => e
  | StepOut.cont e => e
  | StepOut.stop e => e

/-- The events returned by a micro-step (one for `emit`, none otherwise). -/
def StepOut.events : StepOut I → List (Event I)
  | StepOut.emit ev _ => [ev]
  | StepOut.cont _ => []
  | StepOut.stop _ => []

/-- One iteration of the internal `loop` in `Events::next`, translated
arm by arm from the `match self.state` in the source. `clock tick` is the
value `clock_ticks::precise_time_ns()` returns at the `tick`-th sample;
the returned `Nat` is the new sample counter and the list logs the Source
calls and sleeps the iteration performed, in order. -/
def step (clock : Nat → Nat) (e : Events I) (tick : Nat) :
    StepOut I × Nat × List Effect :=
  match e.state with
  | State.render =>
    if e.window.should_close then
      (StepOut.stop e, tick, [Effect.callShouldClose])
    else
      let start_render := clock tick
      if e.window.size.1 ≠ 0 ∧ e.window.size.2 ≠ 0 then
        (StepOut.emit
          (Event.render
            { ext_dt := (usub start_render e.last_update : ℚ) / (BILLION : ℚ)
              width := e.window.size.1
              height := e.window.size.2 })
          { e with last_frame := start_render, state := State.swapBuffers },
         tick + 1, [Effect.callShouldClose, Effect.callSize])
      else
        (StepOut.cont
          { e with last_frame := start_render, state := State.updateLoop Idle.no },
         tick + 1, [Effect.callShouldClose, Effect.callSize])
  | State.swapBuffers =>
    (StepOut.cont { e with state := State.updateLoop Idle.no },
     tick, [Effect.callSwapBuffers])
  | State.updateLoop idl =>
    let now := clock tick
    if now < e.next_event then
      match e.window.queue with
      | x :: rest =>
        (StepOut.emit (Event.input x)
          { e with state := State.updateLoop Idle.no
                   window := { e.window with queue := rest } },
         tick + 1, [Effect.callPollEvent])
      | [] =>
        if idl = Idle.no then
          (StepOut.emit
            (Event.idle { dt := ((e.next_event - now : Nat) : ℚ) / (BILLION : ℚ) })
            { e with state := State.updateLoop Idle.yes },
           tick + 1, [Effect.callPollEvent])
        else
          (StepOut.cont { e with state := State.updateLoop Idle.no },
           tick + 1, [Effect.callPollEvent, Effect.sleep (e.next_event - now)])
    else if e.next_event = e.next_frame then
      (StepOut.cont { e with state := State.render }, tick + 1, [])
    else
      (StepOut.cont { e with state := State.handleEvents }, tick + 1, [])
  | State.handleEvents =>
    match e.window.queue with
    | [] => (StepOut.cont { e with state := State.update }, tick, [Effect.callPollEvent])
    | x :: rest =>
      (StepOut.emit (Event.input x)
        { e with window := { e.window with queue := rest } },
       tick, [Effect.callPollEvent])
  | State.update =>
    (StepOut.emit (Event.update { dt := e.dt })
      { e with state := State.updateLoop Idle.no
               last_update := uadd e.last_update e.dt_update_in_ns },
     tick, [])

/-- Outcome of one whole `Events::next` call: an event with the resulting
scheduler, sample counter and effect log; the end-of-sequence signal
(`None` in the source); or fuel exhaustion of the internal loop. -/
inductive NextResult (I : Type) where
  | event (ev : Event I) (e : Events I) (tick : Nat) (effs : List Effect)
  | ended (e : Events I) (tick : Nat) (effs : List Effect)
  | outOfFuel
deriving DecidableEq

/-- Prepend effects performed by earlier silent iterations of the loop. -/
def NextResult.addEffs (effs : List Effect) : NextResult I → NextResult I
  | NextResult.event ev e tick effs0 => NextResult.event ev e tick (effs ++ effs0)
  | NextResult.ended e tick effs0 => NextResult.ended e tick (effs ++ effs0)
  | NextResult.outOfFuel => NextResult.outOfFuel

/-- One whole `Events::next` call: iterate `step` until it emits an event
or ends the sequence, bounded by `fuel` iterations (the real loop only
terminates because the clock advances). -/
def nextFuel (clock : Nat → Nat) : Nat → Events I → Nat → NextResult I
  | 0, _, _ => NextResult.outOfFuel
  | fuel + 1, e, tick =>
    match step clock e tick with
    | (StepOut.emit ev e2, tick2, effs) => NextResult.event ev e2 tick2 effs
    | (StepOut.stop e2, tick2, effs) => NextResult.ended e2 tick2 effs
    | (StepOut.cont e2, tick2, effs) =>
      NextResult.addEffs effs (nextFuel clock fuel e2 tick2)

/-- Drive the iterator for at most `n` calls of `next` (each with the
given fuel), collecting the emitted events and the effect log; stops at
the end-of-sequence signal, as the Rust iterator protocol does. -/
def drive (clock : Nat → Nat) (fuel : Nat) :
    Nat → Events I → Nat → List (Event I) × Events I × Nat × List Effect
  | 0, e, tick => ([], e, tick, [])
  | n + 1, e, tick =>
    match nextFuel clock fuel e tick with
    | NextResult.event ev e2 tick2 effs =>
      let rest := drive clock fuel n e2 tick2
      (ev :: rest.1, rest.2.1, rest.2.2.1, effs ++ rest.2.2.2)
    | NextResult.ended e2 tick2 effs => ([], e2, tick2, effs)
    | NextResult.outOfFuel => ([], e, tick, [])

/-- The raw micro-step trace: `n` iterations of `step` from a scheduler,
returning the final scheduler, the final sample counter and the events
emitted along the way. -/
def runSteps (clock : Nat → Nat) : Nat → Events I → Nat → Events I × Nat × List (Event I)
  | 0, e, tick => (e, tick, [])
  | n + 1, e, tick =>
    let out := step clock e tick
    let rest := runSteps clock n out.1.sched out.2.1
    (rest.1, rest.2.1, out.1.events ++ rest.2.2)

/-- Number of update events in a list of emitted events. -/
def countUpdates : List (Event I) → Nat
  | [] => 0
  | Event.update _ :: rest => countUpdates rest + 1
  | Event.render _ :: rest => countUpdates rest
  | Event.input _ :: rest => countUpdates rest
  | Event.idle _ :: rest => countUpdates rest

/-- A sample window used by concrete witnesses. -/
def sampleWin : WindowState Nat :=
  { should_close := false, size := (640, 480), queue := [] }

/-- A sample scheduler used by concrete witnesses. -/
def sampleEvents : Events Nat := Events.new sampleWin 1000

/-- C1: configuring the scheduler with updates-per-second = 0 or
max-frames-per-second = 0 is rejected at configuration time (the `BILLION
/ 0` division panics inside the setter, modelled by `none`) and produces
no scheduler instance; no infinite or zero interval is silently stored
and the event loop is never entered with such a configuration. -/
theorem config_zero_rejected (e : Events I) :
    set_ups e 0 = none ∧ set_max_fps e 0 = none :=
  ⟨rfl, rfl⟩

/-- C9: the two configuration knobs are independent: the `Ups` setter
changes only `dt_update_in_ns` and `dt`, the `MaxFps` setter changes only
`dt_frame_in_ns`; all other fields of the scheduler are untouched. -/
theorem setters_independent (e : Events I) (u f : Nat)
    (hu : u ≠ 0) (hf : f ≠ 0) :
    ∃ e1 e2, set_ups e u = some e1 ∧ set_max_fps e f = some e2 ∧
      e1.window = e.window ∧ e1.state = e.state ∧
      e1.last_update = e.last_update ∧ e1.last_frame = e.last_frame ∧
      e1.dt_frame_in_ns = e.dt_frame_in_ns ∧
      e1.dt_update_in_ns = BILLION / u ∧ e1.dt = 1 / (u : ℚ) ∧
      e2.window = e.window ∧ e2.state = e.state ∧
      e2.last_update = e.last_update ∧ e2.last_frame = e.last_frame ∧
      e2.dt_update_in_ns = e.dt_update_in_ns ∧ e2.dt = e.dt ∧
      e2.dt_frame_in_ns = BILLION / f := by
  refine ⟨{ e with dt_update_in_ns := BILLION / u, dt := 1 / (u : ℚ) },
          { e with dt_frame_in_ns := BILLION / f }, ?_, ?_,
          rfl, rfl, rfl, rfl, rfl, rfl, rfl, rfl, rfl, rfl, rfl, rfl, rfl, rfl⟩
  · unfold set_ups
    rw [if_neg hu]
  · unfold set_max_fps
    rw [if_neg hf]

/-- Witness for C9 at a concrete scheduler with `Ups(3)` and `MaxFps(7)`. -/
theorem setters_independent_witness :
    (3 : Nat) ≠ 0 ∧ (7 : Nat) ≠ 0 ∧
    ∃ e1 e2, set_ups sampleEvents 3 = some e1 ∧ set_max_fps sampleEvents 7 = some e2 ∧
      e1.window = sampleEvents.window ∧ e1.state = sampleEvents.state ∧
      e1.last_update = sampleEvents.last_update ∧ e1.last_frame = sampleEvents.last_frame ∧
      e1.dt_frame_in_ns = sampleEvents.dt_frame_in_ns ∧
      e1.dt_update_in_ns = BILLION / 3 ∧ e1.dt = 1 / ((3 : Nat) : ℚ) ∧
      e2.window = sampleEvents.window ∧ e2.state = sampleEvents.state ∧
      e2.last_update = sampleEvents.last_update ∧ e2.last_frame = sampleEvents.last_frame ∧
      e2.dt_update_in_ns = sampleEvents.dt_update_in_ns ∧ e2.dt = sampleEvents.dt ∧
      e2.dt_frame_in_ns = BILLION / 7 :=
  ⟨by decide, by decide, setters_independent sampleEvents 3 7 (by decide) (by decide)⟩

/-- C5: a produce-next call that reaches the `Update` state advances
`last_update` by exactly `dt_update_in_ns`, moves to `UpdateLoop(No)` and
emits an update event carrying the stored `dt`; for a scheduler
configured through the `Ups` setter that `dt` is exactly
`1 / updates_per_second` and the advance is exactly `BILLION / ups`,
independent of the clock (`clock` and `tick` are arbitrary and unused). -/
theorem update_emits_fixed_dt (clock : Nat → Nat) (e0 e : Events I) (tick ups : Nat)
    (h1 : e.state = State.update) (h2 : set_ups e0 ups = some e) :
    step clock e tick =
      (StepOut.emit (Event.update { dt := e.dt })
        { e with state := State.updateLoop Idle.no
                 last_update := uadd e.last_update e.dt_update_in_ns },
       tick, [])
    ∧ e.dt = 1 / (ups : ℚ) ∧ e.dt_update_in_ns = BILLION / ups := by
  have hu : ups ≠ 0 := by
    intro h
    subst h
    simp [set_ups] at h2
  unfold set_ups at h2
  rw [if_neg hu] at h2
  injection h2 with h2
  subst h2
  obtain ⟨win, st, lu, lf, du, df, dt0⟩ := e0
  simp only at h1
  subst h1
  exact ⟨rfl, rfl, rfl⟩

/-- A sample scheduler sitting in the `Update` state before configuration. -/
def updEvents : Events Nat := { sampleEvents with state := State.update }

/-- The sample scheduler of `updEvents` after applying `Ups(120)`. -/
def updEvents120 : Events Nat :=
  { updEvents with dt_update_in_ns := BILLION / 120, dt := 1 / ((120 : Nat) : ℚ) }

/-- Witness for C5 at a concrete configured scheduler in the `Update` state. -/
theorem update_emits_fixed_dt_witness :
    updEvents120.state = State.update ∧
    set_ups updEvents 120 = some updEvents120 ∧
    (step (fun _ => 0) updEvents120 0 =
      (StepOut.emit (Event.update { dt := updEvents120.dt })
        { updEvents120 with state := State.updateLoop Idle.no
                            last_update := uadd updEvents120.last_update updEvents120.dt_update_in_ns },
       0, [])
    ∧ updEvents120.dt = 1 / ((120 : Nat) : ℚ)
    ∧ updEvents120.dt_update_in_ns = BILLION / 120) :=
  ⟨rfl, rfl, update_emits_fixed_dt (fun _ => 0) updEvents updEvents120 0 120 rfl rfl⟩

/-- C2: in `UpdateLoop` with the idle flag already set, slack remaining
and no pending input, the scheduler emits nothing: it performs a blocking
sleep for exactly the remaining slack and re-enters `UpdateLoop(No)`
within the same call; moreover if the next clock sample is at or past the
deadline (as a real sleep guarantees), the following iteration emits no
idle event either, so a second consecutive idle event never occurs. -/
theorem idle_throttled (clock : Nat → Nat) (e : Events I) (tick : Nat)
    (h1 : e.state = State.updateLoop Idle.yes) (h2 : e.window.queue = [])
    (h3 : clock tick < e.next_event) :
    step clock e tick =
      (StepOut.cont { e with state := State.updateLoop Idle.no }, tick + 1,
        [Effect.callPollEvent, Effect.sleep (e.next_event - clock tick)])
    ∧ (e.next_event ≤ clock (tick + 1) →
        (step clock { e with state := State.updateLoop Idle.no } (tick + 1)).1.events = []) := by
  obtain ⟨⟨sc, sz, q⟩, st, lu, lf, du, df, dt0⟩ := e
  simp only at h1 h2
  subst h1
  subst h2
  simp only [step, Events.next_event, Events.next_frame, Events.next_update] at h3 ⊢
  refine ⟨?_, ?_⟩
  · rw [if_pos h3, if_neg (by decide : ¬ (Idle.yes = Idle.no))]
  · intro h4
    rw [if_neg (not_lt.mpr h4)]
    split
    · rfl
    · rfl

/-- A sample scheduler paused in `UpdateLoop(Yes)` with nothing to do. -/
def idleEvents : Events Nat := { sampleEvents with state := State.updateLoop Idle.yes }

/-- A clock whose second sample lies past every deadline of `idleEvents`. -/
def idleClock : Nat → Nat := fun t => if t = 0 then 0 else 20000000

/-- Witness for C2 at a concrete paused scheduler. -/
theorem idle_throttled_witness :
    idleEvents.state = State.updateLoop Idle.yes ∧
    idleEvents.window.queue = [] ∧
    idleClock 0 < idleEvents.next_event ∧
    step idleClock idleEvents 0 =
      (StepOut.cont { idleEvents with state := State.updateLoop Idle.no }, 0 + 1,
        [Effect.callPollEvent, Effect.sleep (idleEvents.next_event - idleClock 0)]) ∧
    (step idleClock { idleEvents with state := State.updateLoop Idle.no } (0 + 1)).1.events = [] :=
  ⟨rfl, rfl, by decide,
    (idle_throttled idleClock idleEvents 0 rfl rfl (by decide)).1,
    (idle_throttled idleClock idleEvents 0 rfl rfl (by decide)).2 (by decide)⟩

/-- C6: in `UpdateLoop` once a deadline has arrived (`next_event ≤ now`),
the call emits nothing and transitions to `Render` exactly when
`next_event == next_frame` (so a tie between the frame and update
deadlines picks `Render`), and to `HandleEvents` (drain-input) otherwise. -/
theorem deadline_dispatch (clock : Nat → Nat) (e : Events I) (tick : Nat) (idl : Idle)
    (h1 : e.state = State.updateLoop idl) (h2 : e.next_event ≤ clock tick) :
    step clock e tick =
      (StepOut.cont
        { e with state := if e.next_event = e.next_frame then State.render
                          else State.handleEvents },
       tick + 1, [])
    ∧ (e.next_frame ≤ e.next_update → (step clock e tick).1.sched.state = State.render)
    ∧ (e.next_update < e.next_frame → (step clock e tick).1.sched.state = State.handleEvents)
    ∧ (step clock e tick).1.events = [] := by
  obtain ⟨⟨sc, sz, q⟩, st, lu, lf, du, df, dt0⟩ := e
  simp only at h1
  subst h1
  simp only [step, Events.next_event, Events.next_frame, Events.next_update] at h2 ⊢
  refine ⟨?_, ?_, ?_, ?_⟩
  · rw [if_neg (not_lt.mpr h2)]
    split
    · rfl
    · rfl
  · intro h3
    rw [if_neg (not_lt.mpr h2), if_pos (min_eq_left h3)]
    rfl
  · intro h3
    have hne : ¬ (min (uadd lf df) (uadd lu du) = uadd lf df) := by omega
    rw [if_neg (not_lt.mpr h2), if_neg hne]
    rfl
  · rw [if_neg (not_lt.mpr h2)]
    split
    · rfl
    · rfl

/-- A sample scheduler in `UpdateLoop(No)` facing an expired deadline. -/
def dueEvents : Events Nat := { sampleEvents with state := State.updateLoop Idle.no }

/-- Witness for C6 at a concrete scheduler whose update deadline is the
sooner one, so the dispatch goes to `HandleEvents`. -/
theorem deadline_dispatch_witness :
    dueEvents.state = State.updateLoop Idle.no ∧
    dueEvents.next_event ≤ (fun _ : Nat => 10000000000) 0 ∧
    step (fun _ : Nat => 10000000000) dueEvents 0 =
      (StepOut.cont
        { dueEvents with state := if dueEvents.next_event = dueEvents.next_frame then State.render
                                  else State.handleEvents },
       0 + 1, []) ∧
    dueEvents.next_update < dueEvents.next_frame ∧
    (step (fun _ : Nat => 10000000000) dueEvents 0).1.sched.state = State.handleEvents ∧
    (step (fun _ : Nat => 10000000000) dueEvents 0).1.events = [] :=
  ⟨rfl, by decide,
    (deadline_dispatch (fun _ => 10000000000) dueEvents 0 Idle.no rfl (by decide)).1,
    by decide,
    (deadline_dispatch (fun _ => 10000000000) dueEvents 0 Idle.no rfl (by decide)).2.2.1 (by decide),
    (deadline_dispatch (fun _ => 10000000000) dueEvents 0 Idle.no rfl (by decide)).2.2.2⟩

/-- C7: in `Render` without close-intent but with a zero drawable
dimension, no render event is emitted and the machine falls through to
`UpdateLoop(No)` silently within the same produce-next call (the skipped
render is not queued: the state moves on, not to `SwapBuffers`). -/
theorem zero_size_skips_render (clock : Nat → Nat) (e : Events I) (tick : Nat)
    (h1 : e.state = State.render) (h2 : e.window.should_close = false)
    (h3 : e.window.size.1 = 0 ∨ e.window.size.2 = 0) :
    step clock e tick =
      (StepOut.cont { e with last_frame := clock tick, state := State.updateLoop Idle.no },
       tick + 1, [Effect.callShouldClose, Effect.callSize])
    ∧ ∀ fuel, nextFuel clock (fuel + 1) e tick =
        NextResult.addEffs [Effect.callShouldClose, Effect.callSize]
          (nextFuel clock fuel
            { e with last_frame := clock tick, state := State.updateLoop Idle.no }
            (tick + 1)) := by
  obtain ⟨⟨sc, sz, q⟩, st, lu, lf, du, df, dt0⟩ := e
  simp only at h1 h2 h3
  subst h1
  subst h2
  have hsz : ¬ (sz.1 ≠ 0 ∧ sz.2 ≠ 0) := by
    rcases h3 with h | h
    · simp [h]
    · simp [h]
  have hmain : step clock
      ⟨⟨false, sz, q⟩, State.render, lu, lf, du, df, dt0⟩ tick =
      (StepOut.cont
        ⟨⟨false, sz, q⟩, State.updateLoop Idle.no, lu, clock tick, du, df, dt0⟩,
       tick + 1, [Effect.callShouldClose, Effect.callSize]) := by
    simp only [step]
    rw [if_neg hsz, if_neg Bool.false_ne_true]
  refine ⟨hmain, ?_⟩
  intro fuel
  simp only [nextFuel]
  rw [hmain]

/-- A sample scheduler whose window is minimized (zero width). -/
def hiddenEvents : Events Nat :=
  { sampleEvents with window := { sampleWin with size := (0, 480) } }

/-- Witness for C7 at a concrete minimized window, fuel 1 for the
fallthrough equation. -/
theorem zero_size_skips_render_witness :
    hiddenEvents.state = State.render ∧
    hiddenEvents.window.should_close = false ∧
    (hiddenEvents.window.size.1 = 0 ∨ hiddenEvents.window.size.2 = 0) ∧
    step (fun _ : Nat => 2000) hiddenEvents 0 =
      (StepOut.cont
        { hiddenEvents with last_frame := (fun _ : Nat => 2000) 0
                            state := State.updateLoop Idle.no },
       0 + 1, [Effect.callShouldClose, Effect.callSize]) ∧
    nextFuel (fun _ : Nat => 2000) (1 + 1) hiddenEvents 0 =
      NextResult.addEffs [Effect.callShouldClose, Effect.callSize]
        (nextFuel (fun _ : Nat => 2000) 1
          { hiddenEvents with last_frame := (fun _ : Nat => 2000) 0
                              state := State.updateLoop Idle.no }
          (0 + 1)) :=
  ⟨rfl, rfl, Or.inl rfl,
    (zero_size_skips_render (fun _ => 2000) hiddenEvents 0 rfl rfl (Or.inl rfl)).1,
    (zero_size_skips_render (fun _ => 2000) hiddenEvents 0 rfl rfl (Or.inl rfl)).2 1⟩

/-- Wrapping `u64` subtraction coincides with truncated subtraction when
no underflow occurs. -/
theorem usub_of_le (a b : Nat) (hba : b ≤ a) (ha : a < U64) : usub a b = a - b := by
  unfold usub
  rw [Nat.mod_eq_of_lt (lt_of_le_of_lt hba ha)]
  have h1 : a + U64 - b = (a - b) + U64 := by omega
  rw [h1, Nat.add_mod_right]
  exact Nat.mod_eq_of_lt (by omega)

/-- C8: an emitted render event carries `ext_dt = (frame_start −
last_update) / 1e9` with the Source's width and height; under a monotonic
clock with `last_update` not past the frame start (and the clock value a
`u64`), the nanosecond subtraction does not underflow and
`ext_dt ≥ 0`. -/
theorem render_extrapolation (clock : Nat → Nat) (e : Events I) (tick : Nat)
    (h1 : e.state = State.render) (h2 : e.window.should_close = false)
    (h4 : e.window.size.1 ≠ 0) (h5 : e.window.size.2 ≠ 0)
    (h6 : e.last_update ≤ clock tick) (h7 : clock tick < U64) :
    step clock e tick =
      (StepOut.emit
        (Event.render
          { ext_dt := ((clock tick - e.last_update : Nat) : ℚ) / (BILLION : ℚ)
            width := e.window.size.1
            height := e.window.size.2 })
        { e with last_frame := clock tick, state := State.swapBuffers },
       tick + 1, [Effect.callShouldClose, Effect.callSize])
    ∧ 0 ≤ ((clock tick - e.last_update : Nat) : ℚ) / (BILLION : ℚ) := by
  obtain ⟨⟨sc, sz, q⟩, st, lu, lf, du, df, dt0⟩ := e
  simp only at h1 h2 h4 h5 h6
  subst h1
  subst h2
  constructor
  · simp only [step]
    rw [if_neg Bool.false_ne_true, if_pos ⟨h4, h5⟩, usub_of_le (clock tick) lu h6 h7]
  · exact div_nonneg (Nat.cast_nonneg _) (Nat.cast_nonneg _)

/-- Witness for C8 at a concrete renderable scheduler and clock. -/
theorem render_extrapolation_witness :
    sampleEvents.state = State.render ∧
    sampleEvents.window.should_close = false ∧
    sampleEvents.window.size.1 ≠ 0 ∧
    sampleEvents.window.size.2 ≠ 0 ∧
    sampleEvents.last_update ≤ (fun _ : Nat => 5000) 0 ∧
    (fun _ : Nat => 5000) 0 < U64 ∧
    step (fun _ : Nat => 5000) sampleEvents 0 =
      (StepOut.emit
        (Event.render
          { ext_dt := (((fun _ : Nat => 5000) 0 - sampleEvents.last_update : Nat) : ℚ) / (BILLION : ℚ)
            width := sampleEvents.window.size.1
            height := sampleEvents.window.size.2 })
        { sampleEvents with last_frame := (fun _ : Nat => 5000) 0, state := State.swapBuffers },
       0 + 1, [Effect.callShouldClose, Effect.callSize]) ∧
    0 ≤ (((fun _ : Nat => 5000) 0 - sampleEvents.last_update : Nat) : ℚ) / (BILLION : ℚ) :=
  ⟨rfl, rfl, by decide, by decide, by decide, by decide,
    (render_extrapolation (fun _ => 5000) sampleEvents 0 rfl rfl (by decide) (by decide)
      (by decide) (by decide)).1,
    (render_extrapolation (fun _ => 5000) sampleEvents 0 rfl rfl (by decide) (by decide)
      (by decide) (by decide)).2⟩

/-- C4: with the machine in `Render` and the Source signalling close
intent, the produce-next call returns the end-of-sequence signal with no
event, the scheduler (window included) untouched, and the close query as
its only Source call; driving the iterator any further produces no events
and no Source calls beyond that single query, and arbitrarily many raw
micro-steps leave the scheduler unchanged and emit nothing. -/
theorem close_intent_ends (clock : Nat → Nat) (e : Events I) (tick : Nat)
    (h1 : e.state = State.render) (h2 : e.window.should_close = true) :
    (∀ fuel, nextFuel clock (fuel + 1) e tick =
      NextResult.ended e tick [Effect.callShouldClose])
    ∧ (∀ n fuel, drive clock (fuel + 1) (n + 1) e tick =
      ([], e, tick, [Effect.callShouldClose]))
    ∧ (∀ n, runSteps clock n e tick = (e, tick, [])) := by
  obtain ⟨⟨sc, sz, q⟩, st, lu, lf, du, df, dt0⟩ := e
  simp only at h1 h2
  subst h1
  subst h2
  have hstep : step clock ⟨⟨true, sz, q⟩, State.render, lu, lf, du, df, dt0⟩ tick =
      (StepOut.stop ⟨⟨true, sz, q⟩, State.render, lu, lf, du, df, dt0⟩, tick,
        [Effect.callShouldClose]) := rfl
  refine ⟨?_, ?_, ?_⟩
  · intro fuel
    simp only [nextFuel]
    rw [hstep]
  · intro n fuel
    simp only [drive, nextFuel]
    rw [hstep]
  · intro n
    induction n with
    | zero => rfl
    | succ n ih =>
      simp only [runSteps]
      rw [hstep]
      simp [StepOut.sched, StepOut.events, ih]

/-- A sample scheduler whose window has asked to close. -/
def closingEvents : Events Nat :=
  { sampleEvents with window := { sampleWin with should_close := true } }

/-- Witness for C4 at a concrete closing scheduler, with fuel 1, three
further iterator calls and three raw micro-steps. -/
theorem close_intent_ends_witness :
    closingEvents.state = State.render ∧
    closingEvents.window.should_close = true ∧
    nextFuel (fun _ : Nat => 0) (0 + 1) closingEvents 0 =
      NextResult.ended closingEvents 0 [Effect.callShouldClose] ∧
    drive (fun _ : Nat => 0) (0 + 1) (2 + 1) closingEvents 0 =
      ([], closingEvents, 0, [Effect.callShouldClose]) ∧
    runSteps (fun _ : Nat => 0) 3 closingEvents 0 = (closingEvents, 0, []) :=
  ⟨rfl, rfl,
    (close_intent_ends (fun _ => 0) closingEvents 0 rfl rfl).1 0,
    (close_intent_ends (fun _ => 0) closingEvents 0 rfl rfl).2.1 2 0,
    (close_intent_ends (fun _ => 0) closingEvents 0 rfl rfl).2.2 3⟩

/-- Unfolding of `drive` when the produce-next call emits an event. -/
theorem drive_event (clock : Nat → Nat) (fuel n : Nat) (e : Events I) (tick : Nat)
    (ev : Event I) (e2 : Events I) (tick2 : Nat) (effs : List Effect)
    (h : nextFuel clock fuel e tick = NextResult.event ev e2 tick2 effs) :
    drive clock fuel (n + 1) e tick =
      (ev :: (drive clock fuel n e2 tick2).1,
       (drive clock fuel n e2 tick2).2.1,
       (drive clock fuel n e2 tick2).2.2.1,
       effs ++ (drive clock fuel n e2 tick2).2.2.2) := by
  simp only [drive]
  rw [h]

/-- C3: from `HandleEvents` (the drain state) with `l` queued input items,
`l.length + 1` produce-next calls emit exactly the input events of `l`, in
queue order, followed by one update event; each call polls the Source
once, and the machine moves to `Update` (and then past it) only when the
poll comes back empty, leaving an emptied queue and `last_update` advanced
once. -/
theorem drain_ordered (clock : Nat → Nat) (l : List I) (e : Events I) (tick : Nat)
    (h1 : e.state = State.handleEvents) (h2 : e.window.queue = l)
    (h3 : e.window.should_close = false) :
    drive clock 2 (l.length + 1) e tick =
      (l.map Event.input ++ [Event.update { dt := e.dt }],
       { e with window := { e.window with queue := [] }
                state := State.updateLoop Idle.no
                last_update := uadd e.last_update e.dt_update_in_ns },
       tick,
       List.replicate (l.length + 1) Effect.callPollEvent) := by
  induction l generalizing e with
  | nil =>
    obtain ⟨⟨sc, sz, q⟩, st, lu, lf, du, df, dt0⟩ := e
    simp only at h1 h2 h3
    subst h1
    subst h2
    subst h3
    rfl
  | cons x rest ih =>
    obtain ⟨⟨sc, sz, q⟩, st, lu, lf, du, df, dt0⟩ := e
    simp only at h1 h2 h3
    subst h1
    subst h2
    subst h3
    have hfirst : nextFuel clock 2
        ⟨⟨false, sz, x :: rest⟩, State.handleEvents, lu, lf, du, df, dt0⟩ tick =
        NextResult.event (Event.input x)
          ⟨⟨false, sz, rest⟩, State.handleEvents, lu, lf, du, df, dt0⟩ tick
          [Effect.callPollEvent] := rfl
    have ih' := ih ⟨⟨false, sz, rest⟩, State.handleEvents, lu, lf, du, df, dt0⟩ rfl rfl rfl
    simp only [List.length_cons]
    rw [drive_event clock 2 (rest.length + 1) _ tick _ _ _ _ hfirst, ih']
    rfl

/-- A sample scheduler in the drain state with two queued input items. -/
def drainEvents : Events Nat :=
  { sampleEvents with state := State.handleEvents
                      window := { sampleWin with queue := [7, 8] } }

/-- Witness for C3 at a concrete two-item queue. -/
theorem drain_ordered_witness :
    drainEvents.state = State.handleEvents ∧
    drainEvents.window.queue = [7, 8] ∧
    drainEvents.window.should_close = false ∧
    drive (fun _ : Nat => 0) 2 ([7, 8].length + 1) drainEvents 0 =
      ([7, 8].map Event.input ++ [Event.update { dt := drainEvents.dt }],
       { drainEvents with window := { drainEvents.window with queue := [] }
                          state := State.updateLoop Idle.no
                          last_update := uadd drainEvents.last_update drainEvents.dt_update_in_ns },
       0,
       List.replicate ([7, 8].length + 1) Effect.callPollEvent) :=
  ⟨rfl, rfl, rfl, drain_ordered (fun _ => 0) [7, 8] drainEvents 0 rfl rfl rfl⟩

/-- Update-event counts split over list append. -/
theorem countUpdates_append (l1 l2 : List (Event I)) :
    countUpdates (l1 ++ l2) = countUpdates l1 + countUpdates l2 := by
  induction l1 with
  | nil => simp [countUpdates]
  | cons x rest ih =>
    cases x <;> simp [countUpdates, ih]
    omega

/-- Bookkeeping of one micro-step: `dt_update_in_ns` is never touched, at
most one update event is emitted, and `last_update` changes exactly when
one is, and then exactly by `dt_update_in_ns`. -/
theorem step_update_accounting (clock : Nat → Nat) (e : Events I) (tick : Nat) :
    (step clock e tick).1.sched.dt_update_in_ns = e.dt_update_in_ns ∧
    (((step clock e tick).1.sched.last_update = e.last_update ∧
        countUpdates (step clock e tick).1.events = 0) ∨
      ((step clock e tick).1.sched.last_update = uadd e.last_update e.dt_update_in_ns ∧
        countUpdates (step clock e tick).1.events = 1)) := by
  obtain ⟨⟨sc, sz, q⟩, st, lu, lf, du, df, dt0⟩ := e
  cases st with
  | render =>
    cases sc
    · simp only [step]
      rw [if_neg Bool.false_ne_true]
      split <;> simp [StepOut.sched, StepOut.events, countUpdates]
    · simp [step, StepOut.sched, StepOut.events, countUpdates]
  | swapBuffers => simp [step, StepOut.sched, StepOut.events, countUpdates]
  | updateLoop idl =>
    cases idl <;> cases q <;> simp only [step] <;>
      (repeat' split) <;>
      simp_all [StepOut.sched, StepOut.events, countUpdates]
  | handleEvents =>
    cases q <;> simp [step, StepOut.sched, StepOut.events, countUpdates]
  | update => simp [step, StepOut.sched, StepOut.events, countUpdates]

/-- C10: over any number of raw micro-steps, `last_update` stays equal to
the construction-time clock value plus (number of update events emitted so
far) times `dt_update_in_ns`, modulo `2 ^ 64`: it is advanced only by the
`Update` arm, always by exactly `dt_update_in_ns` (which itself never
changes), and never resampled from the clock. -/
theorem last_update_invariant (clock : Nat → Nat) (n : Nat) (e0 : Events I)
    (tick start : Nat) (h1 : e0.last_update = start) (h2 : start < U64) :
    (runSteps clock n e0 tick).1.last_update =
      (start + countUpdates (runSteps clock n e0 tick).2.2 * e0.dt_update_in_ns) % U64
    ∧ (runSteps clock n e0 tick).1.dt_update_in_ns = e0.dt_update_in_ns := by
  induction n generalizing e0 tick start with
  | zero =>
    subst h1
    simp [runSteps, countUpdates, Nat.mod_eq_of_lt h2]
  | succ n ih =>
    obtain ⟨hd, hcase⟩ := step_update_accounting clock e0 tick
    simp only [runSteps]
    rcases hcase with ⟨hl, hz⟩ | ⟨hl, hone⟩
    · have ih' := ih (step clock e0 tick).1.sched (step clock e0 tick).2.1 start
        (by rw [hl]; exact h1) h2
      refine ⟨?_, ih'.2.trans hd⟩
      rw [countUpdates_append, hz, Nat.zero_add, ih'.1, hd]
    · have hlt : (start + e0.dt_update_in_ns) % U64 < U64 := Nat.mod_lt _ (by decide)
      have ih' := ih (step clock e0 tick).1.sched (step clock e0 tick).2.1
        ((start + e0.dt_update_in_ns) % U64)
        (by rw [hl]; unfold uadd; rw [h1]) hlt
      refine ⟨?_, ih'.2.trans hd⟩
      rw [countUpdates_append, hone, ih'.1, hd, Nat.mod_add_mod]
      congr 1
      ring

/-- A sample clock stream advancing nine milliseconds per sample. -/
def runClock : Nat → Nat := fun t => 1000 + t * 9000000

/-- Witness for C10 over six micro-steps of a concrete run. -/
theorem last_update_invariant_witness :
    sampleEvents.last_update = 1000 ∧ 1000 < U64 ∧
    ((runSteps runClock 6 sampleEvents 0).1.last_update =
      (1000 + countUpdates (runSteps runClock 6 sampleEvents 0).2.2 *
        sampleEvents.dt_update_in_ns) % U64
    ∧ (runSteps runClock 6 sampleEvents 0).1.dt_update_in_ns =
        sampleEvents.dt_update_in_ns) :=
  ⟨rfl, by decide, last_update_invariant runClock 6 sampleEvents 0 1000 rfl (by decide)⟩

end Piston
